import Mathlib

/-!
Verification of the mcp-debugger line-validation subsystem.

The TypeScript sources are shallowly embedded here:
- `src/utils/python-line-analyzer.ts` (class `PythonLineAnalyzer`)
- `src/validation/validation-manager.ts`, which contains two revisions of
  class `ValidationManager`; the first revision (execution-following sweep,
  `validateExecution`) is embedded in namespace `V1`, the second revision
  (file-driven sweep, `validateFile`) in namespace `V2`.
- the Clearance Store (`cleared-lines-store.ts`) is not among the provided
  sources; it is modelled from the spec in namespace `ClearedLinesStore`.

JavaScript strings are modelled as `List Char`.  Regular-expression tests
used by the sources are modelled by hand, each next to the regex it embeds.
-/

/-- JS whitespace test used by `String.prototype.trim`, `\s` and `\w` classes;
modelled by `Char.isWhitespace`. -/
def ws (c : Char) : Bool := c.isWhitespace

/-- JS `\w` character class: `[A-Za-z0-9_]`. -/
def wordChar (c : Char) : Bool := c.isAlphanum || c = '_'

/-- The single-quote character, written via its code point. -/
def sqChar : Char := Char.ofNat 39

/-- The double-quote character. -/
def dqChar : Char := '"'

/-- `p` is a leading segment of `l` (JS `String.prototype.startsWith`). -/
def startsWithL : List Char → List Char → Bool
  | [], _ => true
  | _ :: _, [] => false
  | p :: ps, c :: cs => decide (p = c) && startsWithL ps cs

/-- `p` is a trailing segment of `l` (JS `String.prototype.endsWith`). -/
def endsWithL (p l : List Char) : Bool := startsWithL p.reverse l.reverse

/-- Right-trim: remove trailing whitespace. -/
def rtrimL : List Char → List Char
  | [] => []
  | c :: l =>
    match rtrimL l with
    | [] => if ws c then [] else [c]
    | d :: r => c :: d :: r

/-- JS `String.prototype.trim`: drop leading and trailing whitespace. -/
def trimL (s : List Char) : List Char := rtrimL (s.dropWhile ws)

/-- Substring test (JS `String.prototype.includes`). -/
def containsSub (pat : List Char) : List Char → Bool
  | [] => pat.isEmpty
  | c :: rest => startsWithL pat (c :: rest) || containsSub pat rest

/-- Number of non-overlapping occurrences of the length-3 delimiter `q,q,q`,
scanning left to right and consuming three characters per match: the count
produced by JS `line.match(/"""/g)` (resp. `/'''/g`). -/
def countTriple (q : Char) : List Char → Nat
  | a :: b :: c :: rest =>
    if a = q ∧ b = q ∧ c = q then countTriple q rest + 1
    else countTriple q (b :: c :: rest)
  | _ => 0

/-- Python surface keywords tested for by the sources, as character lists. -/
def classKw : List Char := "class ".toList

def defKw : List Char := "def ".toList

def importKw : List Char := "import ".toList

def fromKw : List Char := "from ".toList

def returnKw : List Char := "return".toList

def passKw : List Char := "pass".toList

def exitedKw : List Char := "exited".toList

def terminatedKw : List Char := "terminated".toList

theorem startsWithL_iff : ∀ (p l : List Char), startsWithL p l = true ↔ ∃ t, l = p ++ t
  | [], l => by simp [startsWithL]
  | _ :: _, [] => by simp [startsWithL]
  | p :: ps, c :: cs => by
    simp only [startsWithL, List.cons_append, Bool.and_eq_true, decide_eq_true_eq]
    constructor
    · rintro ⟨rfl, h⟩
      obtain ⟨t, rfl⟩ := (startsWithL_iff ps cs).mp h
      exact ⟨t, rfl⟩
    · rintro ⟨t, ht⟩
      injection ht with h1 h2
      exact ⟨h1.symm, (startsWithL_iff ps cs).mpr ⟨t, h2⟩⟩

theorem rtrimL_cons_of_not_ws (c : Char) (l : List Char) (h : ws c = false) :
    ∃ v, rtrimL (c :: l) = c :: v := by
  show ∃ v, (match rtrimL l with
    | [] => if ws c then [] else [c]
    | d :: r => c :: d :: r) = c :: v
  cases hr : rtrimL l with
  | nil => exact ⟨[], by simp [h]⟩
  | cons d r => exact ⟨d :: r, rfl⟩

namespace PythonLineAnalyzer

/-- One step of the scan in `isInsideMultiLineString` (python-line-analyzer.ts,
lines 98-137): the `(inTripleQuote, quoteType)` pair is `outside`,
`inDouble` (open `"""` span) or `inSingle` (open `'''` span).  A line with an
odd count of `"""` toggles in/out of a `"""` span but is ignored while a
`'''` span is open, and symmetrically; the `"""` count is examined before the
`'''` count, exactly as in the source. -/
inductive QuoteState | outside | inDouble | inSingle
deriving DecidableEq

def mlsLine (st : QuoteState) (line : List Char) : QuoteState :=
  let st1 :=
    if countTriple dqChar line % 2 = 1 then
      match st with
      | .outside => .inDouble
      | .inDouble => .outside
      | .inSingle => .inSingle
    else st
  if countTriple sqChar line % 2 = 1 then
    match st1 with
    | .outside => .inSingle
    | .inSingle => .outside
    | .inDouble => .inDouble
  else st1

/-- `isInsideMultiLineString(lineIndex, lines)`: scan all lines strictly
before `lineIndex` and report whether a triple-quoted span is still open. -/
def isInsideMultiLineString (lineIndex : Nat) (lines : List (List Char)) : Bool :=
  decide (((lines.take lineIndex).foldl mlsLine .outside) ≠ .outside)

/-- Regex `^[\]\)\}]+[,;]?$` tail: zero or more closing brackets then an
optional `,` or `;`. -/
def isClosingChar (c : Char) : Bool := c = ']' || c = ')' || c = '}'

def closingTail : List Char → Bool
  | [] => true
  | [c] => isClosingChar c || c = ',' || c = ';'
  | c :: d :: r => isClosingChar c && closingTail (d :: r)

/-- Regex `^[\]\)\}]+[,;]?$` over the trimmed line. -/
def isClosingBracketsOnly : List Char → Bool
  | [] => false
  | c :: r => isClosingChar c && closingTail r

/-- `PythonLineAnalyzer.isExecutableLine(line, lineNumber, allLines)`
(python-line-analyzer.ts, lines 48-93), a chain of early-false returns. -/
def isExecutableLine (line : List Char) (lineNumber : Nat)
    (allLines : List (List Char)) : Bool :=
  let trimmed := trimL line
  if trimmed = [] then false
  else if startsWithL ['#'] trimmed then false
  else if startsWithL [dqChar, dqChar, dqChar] trimmed then false
  else if startsWithL [sqChar, sqChar, sqChar] trimmed then false
  else if isInsideMultiLineString (lineNumber - 1) allLines then false
  else if startsWithL ['@'] trimmed then false
  else if startsWithL classKw trimmed then false
  else if startsWithL defKw trimmed then false
  else if startsWithL importKw trimmed then false
  else if startsWithL fromKw trimmed then false
  else if endsWithL ['\\'] trimmed then false
  else if isClosingBracketsOnly trimmed then false
  else true

end PythonLineAnalyzer

/-- Line type assigned by the ValidationManager line analyzers
(models.ts `LineInfo.type`); `imp` stands for the source's `import`. -/
inductive LType
  | imp
  | function_def
  | method_def
  | function_call
  | assignment
  | control
  | ret
  | other
deriving DecidableEq

/-- models.ts `LineInfo`, restricted to the fields the claims exercise.
The extraction fields (`functionCalls`, `importedModules`) are not modelled:
no claim depends on the extracted names. -/
structure LineInfo where
  content : List Char
  type : LType
deriving DecidableEq

/-- Regex test `/^(if|elif|else|for|while|try|except|finally|with)/` on the
trimmed line (no word boundary in the source pattern). -/
def controlStart (trimmed : List Char) : Bool :=
  startsWithL ("if".toList) trimmed || startsWithL ("elif".toList) trimmed ||
  startsWithL ("else".toList) trimmed || startsWithL ("for".toList) trimmed ||
  startsWithL ("while".toList) trimmed || startsWithL ("try".toList) trimmed ||
  startsWithL ("except".toList) trimmed || startsWithL ("finally".toList) trimmed ||
  startsWithL ("with".toList) trimmed

/-- Regex test `/\w+\s*\(/`: somewhere in the string, a word character with
only whitespace between it and a following `(`. -/
def afterSpacesParen : List Char → Bool
  | [] => false
  | c :: rest => if ws c then afterSpacesParen rest else decide (c = '(')

def hasWordParen : List Char → Bool
  | [] => false
  | c :: rest => (wordChar c && afterSpacesParen rest) || hasWordParen rest

/-- `trimmed.includes('=')`. -/
def hasEq (s : List Char) : Bool := s.any (fun c => decide (c = '='))

/-- `trimmed.includes('==')`. -/
def hasEqEq : List Char → Bool
  | a :: b :: rest => (decide (a = '=') && decide (b = '=')) || hasEqEq (b :: rest)
  | _ => false

namespace V1

/-- First-revision `ValidationManager.analyzeLine` (validation-manager.ts,
lines 299-340), classification branch order exactly as in the source; the
class-definition branch maps to `function_def` as the source comments note. -/
def analyzeLineType (trimmed : List Char) : LType :=
  if startsWithL importKw trimmed || startsWithL fromKw trimmed then .imp
  else if startsWithL defKw trimmed then .function_def
  else if startsWithL classKw trimmed then .function_def
  else if startsWithL returnKw trimmed then .ret
  else if controlStart trimmed then .control
  else if hasEq trimmed && !hasEqEq trimmed then .assignment
  else if hasWordParen trimmed then .function_call
  else .other

def analyzeLine (content : List Char) : LineInfo :=
  ⟨content, analyzeLineType (trimL content)⟩

/-- `looksLikeFunctionCall` (lines 345-354). -/
def looksLikeFunctionCall (line : List Char) : Bool :=
  let trimmed := trimL line
  hasWordParen trimmed &&
    !startsWithL defKw trimmed &&
    !startsWithL classKw trimmed &&
    !startsWithL ("if ".toList) trimmed &&
    !startsWithL ("while ".toList) trimmed &&
    !startsWithL ("for ".toList) trimmed

end V1

namespace V2

/-- Regex test `/^\s+def /` on the raw (untrimmed) line: at least one leading
whitespace character, then `def `. -/
def indentedDefGo : List Char → Bool
  | [] => false
  | c :: l => if ws c then indentedDefGo l else startsWithL defKw (c :: l)

def indentedDef : List Char → Bool
  | [] => false
  | c :: l => ws c && indentedDefGo l

/-- Second-revision `ValidationManager.analyzeLineWaiting` (validation-manager.ts,
lines 779-820).  Unlike `V1.analyzeLine` it has no class branch and adds the
indented-def (`method_def`) branch, tested on the raw line. -/
def analyzeLineWaitingType (content trimmed : List Char) : LType :=
  if startsWithL importKw trimmed || startsWithL fromKw trimmed then .imp
  else if startsWithL defKw trimmed then .function_def
  else if indentedDef content then .method_def
  else if startsWithL returnKw trimmed then .ret
  else if controlStart trimmed then .control
  else if hasEq trimmed && !hasEqEq trimmed then .assignment
  else if hasWordParen trimmed then .function_call
  else .other

def analyzeLineWaiting (content : List Char) : LineInfo :=
  ⟨content, analyzeLineWaitingType content (trimL content)⟩

/-- Second-revision `ValidationManager.isExecutableLine` (lines 858-871):
type-based exclusion of import/function_def/method_def, then empty, comment
and bare `pass` lines. -/
def isExecutableLine (info : LineInfo) : Bool :=
  if info.type = .imp || info.type = .function_def || info.type = .method_def then false
  else
    let trimmed := trimL info.content
    if trimmed = [] || startsWithL ['#'] trimmed || trimmed = passKw then false
    else true

end V2

/-- `ValidationSession.state` (models.ts). -/
inductive SessState
  | running
  | paused
  | completed
  | error
deriving DecidableEq

/-- models.ts `ValidationError` (the `stack` field, always absent in the
first-revision loop, is omitted). -/
structure VError where
  file : List Char
  line : Nat
  msg : List Char
deriving DecidableEq

namespace V1

/-- Result of `sessionManager.getStackTrace` as consumed by
`validateExecution` (lines 136-146): no frames, a frame missing its
file/line, or a usable top frame. -/
inductive StackRes
  | noStack
  | invalidFrame
  | frame (file : List Char) (line : Nat)
deriving DecidableEq

/-- The external collaborators' behaviour during one iteration of
`validateExecution`, supplied as an input: whether `pauseValidation` flipped
the session before the iteration's state check, the stack-trace result, the
store's `isLineCleared` answer, the outcome of the in-try step-and-wait
(`none` = it resolved; `some msg` = it rejected with message `msg`, covering
step failures and `waitForStopped` timeouts), the outcome of the catch-block
recovery step, the line text read (read failures are swallowed by the source,
lines 173-180), and whether the pair-mode `speakError` call in the catch
block rejects. -/
structure IterInput where
  pause : Bool
  stack : StackRes
  cleared : Bool
  stepErr : Option (List Char)
  recoveryErr : Option (List Char)
  content : List Char
  speakFails : Bool
deriving DecidableEq

/-- The mutable data of one `validateExecution` run: the session fields the
loop touches plus the loop-local `processedLines` set.  `recoverySteps` is a
ghost counter of catch-block recovery `stepAndWait` attempts (line 234). -/
structure VEState where
  sstate : SessState
  currentFile : List Char
  currentLine : Nat
  processed : List (List Char × Nat)
  errors : List VError
  validated : Nat
  recoverySteps : Nat
deriving DecidableEq

/-- Outcome of one loop iteration: `cont` = next iteration, `halt` = `break`
(the loop ends, `validateExecution` returns normally), `threw` = an exception
escapes `validateExecution` (only the pair-mode `speakError` in the catch
block can do this). -/
inductive IterOut
  | cont (st : VEState)
  | halt (st : VEState)
  | threw (st : VEState)
deriving DecidableEq

/-- The catch block of `validateExecution` (lines 207-239): termination
messages end the loop; otherwise exactly one `ValidationError` is appended,
pair-mode narration may throw, then one recovery step is attempted; its
failure ends the loop. -/
def veCatch (pairVoice : Bool) (st : VEState) (msg : List Char)
    (speakFails : Bool) (recoveryErr : Option (List Char)) : IterOut :=
  if containsSub exitedKw msg || containsSub terminatedKw msg then .halt st
  else
    let st := { st with errors := st.errors ++ [⟨st.currentFile, st.currentLine, msg⟩] }
    if pairVoice && speakFails then .threw st
    else
      let st := { st with recoverySteps := st.recoverySteps + 1 }
      match recoveryErr with
      | none => .cont st
      | some _ => .halt st

/-- The body of the `while` loop of `validateExecution` (lines 133-240):
read the top frame, update the session position, skip an already-processed
line (step over), skip a cleared line when `skipCleared` (step over), else
analyze the line, choose step-into vs step-over via `looksLikeFunctionCall`
when `followCalls`, step, and on success mark the line cleared and count it.
Any rejection inside the try block lands in `veCatch`. -/
def veIter (skipCleared followCalls pairVoice : Bool) (st : VEState)
    (inp : IterInput) : IterOut :=
  match inp.stack with
  | .noStack => .halt st
  | .invalidFrame => .halt st
  | .frame f l =>
    let st := { st with currentFile := f, currentLine := l }
    if st.processed.contains (f, l) then
      match inp.stepErr with
      | none => .cont st
      | some msg => veCatch pairVoice st msg inp.speakFails inp.recoveryErr
    else
      let st := { st with processed := (f, l) :: st.processed }
      if skipCleared && inp.cleared then
        match inp.stepErr with
        | none => .cont st
        | some msg => veCatch pairVoice st msg inp.speakFails inp.recoveryErr
      else
        let _info := analyzeLine inp.content
        let _stepInto := followCalls && looksLikeFunctionCall inp.content
        match inp.stepErr with
        | none => .cont { st with validated := st.validated + 1 }
        | some msg => veCatch pairVoice st msg inp.speakFails inp.recoveryErr

/-- Outcome of a whole `validateExecution` call: returned normally or threw. -/
inductive VEResult
  | normal (st : VEState)
  | threw (st : VEState)
deriving DecidableEq

/-- `validateExecution` driven for at most `fuel` iterations against the
input stream; `none` means the loop is still running after `fuel` iterations
(the source has no iteration bound of its own: the loop condition is
`session.state === 'running'`). -/
def veRun (skipCleared followCalls pairVoice : Bool) (stream : Nat → IterInput) :
    Nat → Nat → VEState → Option VEResult
  | 0, _, _ => none
  | fuel + 1, i, st =>
    let st := if (stream i).pause then { st with sstate := .paused } else st
    if st.sstate ≠ .running then some (.normal st)
    else
      match veIter skipCleared followCalls pairVoice st (stream i) with
      | .cont st2 => veRun skipCleared followCalls pairVoice stream fuel (i + 1) st2
      | .halt st2 => some (.normal st2)
      | .threw st2 => some (.threw st2)

/-- The orchestration-level inputs of `startValidation` (lines 67-97):
whether the validation session, its cleared-lines store and the referenced
debug session exist, whether the debug session's execution state is already
`PAUSED`, and whether the initial 10s `waitForStopped` resolves. -/
structure SVEnv where
  sessionExists : Bool
  storeExists : Bool
  debugSessionExists : Bool
  execPaused : Bool
  initialWaitOk : Bool
deriving DecidableEq

/-- Observable outcome of `startValidation`: an error thrown to the caller
(the three missing-resource checks, lines 68-82), still inside the loop
after the given fuel, or a returned `ValidationResult` together with the
session's final `state` and `errorsFound`. -/
inductive SVOut
  | thrown
  | looping
  | ret (success : Bool) (finalState : SessState) (errors : List VError)
deriving DecidableEq

/-- First-revision `startValidation` (lines 67-122): throw on a missing
session, store or debug session; set `session.state = 'running'`
unconditionally (line 84 — no terminal-state check); if the debug session is
not paused, wait for it, a timeout landing in the catch (line 109) which sets
`state = 'error'` and returns `success: false`; otherwise run
`validateExecution`, a normal return giving `state = 'completed'` and
`success: true`, and an escaped exception giving the catch. -/
def startValidation (env : SVEnv) (skipCleared followCalls pairVoice : Bool)
    (stream : Nat → IterInput) (fuel : Nat) (st0 : VEState) : SVOut :=
  if !env.sessionExists then .thrown
  else if !env.storeExists then .thrown
  else if !env.debugSessionExists then .thrown
  else
    let st1 := { st0 with sstate := SessState.running }
    if !env.execPaused && !env.initialWaitOk then .ret false .error st1.errors
    else
      match veRun skipCleared followCalls pairVoice stream fuel 0 st1 with
      | none => .looping
      | some (.normal st) => .ret true .completed st.errors
      | some (.threw st) => .ret false .error st.errors

/-- First-revision `pauseValidation` (lines 435-441): only a running session
is flipped to paused. -/
def pauseValidationState (s : SessState) : SessState :=
  if s = .running then .paused else s

end V1

namespace V2

/-- Second-revision `pauseValidation` (lines 928-934): any existing session
is set to `paused`, with no check of its current state. -/
def pauseValidationState (_s : SessState) : SessState := .paused

end V2

namespace V2

/-- State of one `validateFile` sweep (validation-manager.ts, second
revision, lines 611-701) as far as breakpoints are observable: the session
state, the breakpoints currently set in the external debug session (`armed`),
the log of `setBreakpoint` requests issued, each recorded as the list of
lines the request carried (`requests`), the lines with recorded errors, and
the session's validated-line counter. -/
structure VFState where
  sstate : SessState
  armed : List Nat
  requests : List (List Nat)
  errors : List Nat
  validated : Nat
deriving DecidableEq

/-- The breakpoint effect of `validateLine` (lines 706-746): one
`sessionManager.setBreakpoint(sessionId, filePath, lineNum)` call — a single
request carrying the single line `n` — and no removal afterwards (the source
ends with "since there's no removeBreakpoint method, we'll just leave it for
now"). -/
def validateLineArm (st : VFState) (n : Nat) : VFState :=
  { st with armed := st.armed ++ [n], requests := st.requests ++ [[n]] }

/-- The per-line loop of `validateFile` (lines 639-700) over the remaining
line numbers, with `followCalls` recursion into other files not taken (the
claims under study concern the sweep over the one file).  `stepOk n` says
whether the continue/step/wait operations of `validateLine` on line `n` all
succeed; on failure the error is recorded and, in pair mode, the session is
paused and the exception rethrown (modelled by stopping), while auto mode
continues with the next line. -/
def vfGo (isPair : Bool) (lines : List (List Char)) (cleared : List Nat)
    (stepOk : Nat → Bool) : List Nat → VFState → VFState
  | [], st => st
  | n :: rest, st =>
    if st.sstate ≠ .running then st
    else if cleared.contains n then vfGo isPair lines cleared stepOk rest st
    else
      let content := lines.getD (n - 1) []
      let info := analyzeLineWaiting content
      if !isExecutableLine info then vfGo isPair lines cleared stepOk rest st
      else
        let st := validateLineArm st n
        if stepOk n then
          vfGo isPair lines cleared stepOk rest { st with validated := st.validated + 1 }
        else
          let st := { st with errors := st.errors ++ [n] }
          if isPair then { st with sstate := .paused }
          else vfGo isPair lines cleared stepOk rest st

/-- `validateFile` from `startLine` to the last line (the source's
`for (let lineNum = startLine; lineNum <= lines.length; lineNum++)`),
starting from a running session with no breakpoints armed.  `cleared` is the
set fetched from the store when `skipCleared` is enabled (empty otherwise,
lines 632-636). -/
def validateFile (isPair : Bool) (lines : List (List Char)) (cleared : List Nat)
    (stepOk : Nat → Bool) (startLine : Nat) : VFState :=
  vfGo isPair lines cleared stepOk
    (List.range' startLine (lines.length + 1 - startLine)) ⟨.running, [], [], [], 0⟩

end V2

namespace ClearedLinesStore

/-- Modelled from the spec: the Clearance Store implementation
(`cleared-lines-store.ts`, class `ClearedLinesStore`) is not among the
provided sources — only its data model (`FileValidationState` in models.ts)
and its callers are.  Per spec section 4.2, an entry is keyed by path and
holds the content hash and the set of cleared lines; the cryptographic
digest is modelled as the file content itself (digests of distinct contents
are assumed distinct).  Fields of `FileValidationState` not exercised by the
claims (`lastModified`, `totalLines`, `errors`) are omitted. -/
structure LedgerEntry where
  fileHash : List Char
  clearedLines : List Nat
deriving DecidableEq

/-- The path-keyed store (spec: "a single addressable store mapping path →
serialized ledger entry"). -/
abbrev Store := List (List Char × LedgerEntry)

/-- The file system: path → content, as an association list. -/
abbrev FileSys := List (List Char × List Char)

def fsRead (fs : FileSys) (p : List Char) : Option (List Char) :=
  (fs.find? (fun e => e.1 == p)).map (fun e => e.2)

def lookupEntry (store : Store) (p : List Char) : Option LedgerEntry :=
  (store.find? (fun e => e.1 == p)).map (fun e => e.2)

/-- Modelled from the spec: the staleness check run on every read — "on
every read, recompute the file's current content hash and compare to the
stored hash; on mismatch, delete the entry and persist the deletion before
returning absent". -/
def invalidateIfStale (fs : FileSys) (store : Store) (p : List Char) : Store :=
  match lookupEntry store p, fsRead fs p with
  | some ent, some content =>
    if ent.fileHash == content then store
    else store.filter (fun e => !(e.1 == p))
  | some _, none => store.filter (fun e => !(e.1 == p))
  | none, _ => store

/-- Modelled from the spec: `isLineCleared(path, line)` — true only if a
valid (hash-matching) ledger entry exists and contains the line.  Returns
the answer together with the possibly self-healed store. -/
def isLineCleared (fs : FileSys) (store : Store) (p : List Char) (n : Nat) :
    Bool × Store :=
  let s := invalidateIfStale fs store p
  (match lookupEntry s p with
   | some ent => ent.clearedLines.contains n
   | none => false, s)

/-- Modelled from the spec: `markLineCleared(path, line)` — lazily create a
ledger entry (computing the hash of the current content) if absent, and add
the line to its cleared set. -/
def markLineCleared (fs : FileSys) (store : Store) (p : List Char) (n : Nat) :
    Store :=
  match fsRead fs p with
  | none => store
  | some content =>
    match lookupEntry store p with
    | some ent =>
      store.map (fun e =>
        if e.1 == p then
          (e.1, { e.2 with clearedLines :=
            if ent.clearedLines.contains n then ent.clearedLines
            else ent.clearedLines ++ [n] })
        else e)
    | none => store ++ [(p, ⟨content, [n]⟩)]

def insertSorted (n : Nat) : List Nat → List Nat
  | [] => [n]
  | m :: l => if n ≤ m then n :: m :: l else m :: insertSorted n l

def sortLines : List Nat → List Nat
  | [] => []
  | n :: l => insertSorted n (sortLines l)

/-- Modelled from the spec: `getClearedLines(path) -> sorted line numbers`,
with the staleness check of every read. -/
def getClearedLines (fs : FileSys) (store : Store) (p : List Char) :
    List Nat × Store :=
  let s := invalidateIfStale fs store p
  (match lookupEntry s p with
   | some ent => sortLines ent.clearedLines
   | none => [], s)

/-- Modelled from the spec: `getFileState(path) -> FileValidationState | absent`,
with the staleness check of every read. -/
def getFileState (fs : FileSys) (store : Store) (p : List Char) :
    Option LedgerEntry × Store :=
  let s := invalidateIfStale fs store p
  (lookupEntry s p, s)

end ClearedLinesStore

/-! Concrete fixtures used by the closed theorems below. -/

/-- `x = 1` — an ordinary executable assignment line. -/
def xAssignLine : List Char := "x = 1".toList

/-- `y = 2`. -/
def yAssignLine : List Char := "y = 2".toList

/-- `@decorator` — a decorator line. -/
def decoratorLine : List Char := "@decorator".toList

/-- `return_value = 1` — an assignment whose target starts with `return`. -/
def returnValueLine : List Char := "return_value = 1".toList

/-- A line whose triple-quote delimiter occurs mid-line: `x = """`. -/
def midDelimLine : List Char := "x = ".toList ++ [dqChar, dqChar, dqChar]

/-- A docstring line starting with the `"""` delimiter. -/
def docstringLine : List Char := [dqChar, dqChar, dqChar] ++ "doc".toList

def errFile : List Char := "t.py".toList

def pathB : List Char := "b.py".toList

def boomMsg : List Char := "Exception: boom".toList

def failMsg : List Char := "Step failed: cannot continue".toList

/-- A fresh session state, as built by `createValidationSession`. -/
def vinit : V1.VEState := ⟨.running, [], 0, [], [], 0, 0⟩

/-- A stream on which `getStackTrace` immediately reports no frames. -/
def noStackStream : Nat → V1.IterInput :=
  fun _ => ⟨false, .noStack, false, none, none, [], false⟩

/-- A stream that reports a target runtime error at line 3 whose recovery
step also fails. -/
def c3stream : Nat → V1.IterInput :=
  fun _ => ⟨false, .frame errFile 3, false, some boomMsg, some failMsg, [], false⟩

def c7file : List Char := "a.py".toList

/-- A stream on which the external session forever stops at the same frame
and every step succeeds. -/
def c7stream : Nat → V1.IterInput :=
  fun _ => ⟨false, .frame c7file 1, false, none, none, xAssignLine, false⟩

/-- The loop state reached after the first iteration against `c7stream`;
every further iteration maps it to itself. -/
def c7fix : V1.VEState := ⟨.running, c7file, 1, [(c7file, 1)], [], 1, 0⟩

/-! Helper lemmas. -/

theorem indentedDefGo_drop : ∀ l : List Char, V2.indentedDefGo l = true →
    ∃ u, l.dropWhile ws = defKw ++ u
  | [], h => by simp [V2.indentedDefGo] at h
  | c :: l, h => by
    by_cases hwc : ws c = true
    · simp only [V2.indentedDefGo, hwc, if_true] at h
      obtain ⟨u, hu⟩ := indentedDefGo_drop l h
      exact ⟨u, by simp [List.dropWhile_cons, hwc, hu]⟩
    · rw [Bool.not_eq_true] at hwc
      simp only [V2.indentedDefGo, hwc, Bool.false_eq_true, if_false] at h
      obtain ⟨u, hu⟩ := (startsWithL_iff defKw (c :: l)).mp h
      exact ⟨u, by rw [List.dropWhile_cons, hwc]; simpa using hu⟩

theorem trimL_head_of_indentedDef (content : List Char)
    (h : V2.indentedDef content = true) : ∃ v, trimL content = 'd' :: v := by
  cases content with
  | nil => simp [V2.indentedDef] at h
  | cons c l =>
    simp only [V2.indentedDef, Bool.and_eq_true] at h
    obtain ⟨hwc, hgo⟩ := h
    obtain ⟨u, hu⟩ := indentedDefGo_drop l hgo
    have hdrop : (c :: l).dropWhile ws = defKw ++ u := by
      simp [List.dropWhile_cons, hwc, hu]
    have hd : defKw ++ u = 'd' :: ('e' :: 'f' :: ' ' :: u) := rfl
    have := rtrimL_cons_of_not_ws 'd' ('e' :: 'f' :: ' ' :: u) (by decide)
    obtain ⟨v, hv⟩ := this
    exact ⟨v, by rw [trimL, hdrop, hd, hv]⟩

/-- C10 and C3 both need that `startValidation` reports success with the
session completed whenever `validateExecution` returns normally. -/
theorem sv_completed_of_normal (env : V1.SVEnv) (sk fc pv : Bool)
    (stream : Nat → V1.IterInput) (fuel : Nat) (st0 stf : V1.VEState)
    (h1 : env.sessionExists = true) (h2 : env.storeExists = true)
    (h3 : env.debugSessionExists = true)
    (h4 : env.execPaused = true ∨ env.initialWaitOk = true)
    (h5 : V1.veRun sk fc pv stream fuel 0 { st0 with sstate := SessState.running } =
      some (V1.VEResult.normal stf)) :
    V1.startValidation env sk fc pv stream fuel st0 =
      V1.SVOut.ret true SessState.completed stf.errors := by
  rcases h4 with h4 | h4 <;>
    simp [V1.startValidation, h1, h2, h3, h4, h5]

/-! Claims. -/

/-- C10: every line whose trimmed content begins with the characters
`return` is classified as type `return` by both revisions' line analyzers —
even when `return` is only a prefix of a longer identifier. -/
theorem c10_return_classification (content : List Char)
    (h : startsWithL returnKw (trimL content) = true) :
    (V1.analyzeLine content).type = LType.ret ∧
    (V2.analyzeLineWaiting content).type = LType.ret := by
  obtain ⟨t, ht⟩ := (startsWithL_iff returnKw (trimL content)).mp h
  have hid : V2.indentedDef content = false := by
    cases hb : V2.indentedDef content
    · rfl
    · exfalso
      obtain ⟨v, hv⟩ := trimL_head_of_indentedDef content hb
      rw [ht] at hv
      have : returnKw ++ t = 'r' :: ('e' :: 't' :: 'u' :: 'r' :: 'n' :: t) := rfl
      rw [this] at hv
      injection hv with h1 _
      exact absurd h1 (by decide)
  constructor
  · show V1.analyzeLineType (trimL content) = LType.ret
    rw [ht]
    exact rfl
  · show V2.analyzeLineWaitingType content (trimL content) = LType.ret
    rw [ht]
    unfold V2.analyzeLineWaitingType
    rw [hid]
    exact rfl

/-- Witness for C10 at the claim's own example `return_value = 1`: it is
classified `return`, not `assignment`. -/
theorem c10_witness :
    startsWithL returnKw (trimL returnValueLine) = true ∧
    ((V1.analyzeLine returnValueLine).type = LType.ret ∧
     (V2.analyzeLineWaiting returnValueLine).type = LType.ret) :=
  ⟨by decide, c10_return_classification returnValueLine (by decide)⟩

/-- C8 counterexample: on the line `x = """` a triple-quote delimiter occurs
(the `/"""/g` count is 1), yet `PythonLineAnalyzer.isExecutableLine` reports
the line executable — python-line-analyzer.ts lines 57-59 only test whether
the *trimmed line starts* with a delimiter, not whether one occurs on the
line.  The prior-lines scan (lines 98-137) does count the mid-line
delimiter, so in the two-line file `["x = \x22\x22\x22", "x = 1"]` the
second line is inside an open span and non-executable while the first line
itself — the one the delimiter occurs on — stays executable. -/
theorem c8_counterexample :
    countTriple dqChar midDelimLine = 1 ∧
    PythonLineAnalyzer.isExecutableLine midDelimLine 1 [midDelimLine, xAssignLine] = true ∧
    PythonLineAnalyzer.isInsideMultiLineString 1 [midDelimLine, xAssignLine] = true ∧
    PythonLineAnalyzer.isExecutableLine xAssignLine 2 [midDelimLine, xAssignLine] = false := by
  decide

/-- C8 amended: the classifier marks a line non-executable when its trimmed
content *begins with* a triple-quote delimiter (either style), or when its
position falls inside an open triple-quoted span computed by scanning all
prior lines for odd counts of the two delimiters (a delimiter merely
occurring mid-line does not by itself make its own line non-executable).
The scan alternates correctly and tracks the two styles independently: a
prior line with an odd `"""` count and even `'''` count toggles a `"""`
span open from outside and closed from inside while leaving an open `'''`
span untouched; symmetrically for `'''`; and a line with even counts of
both delimiters changes nothing. -/
theorem c8_amended :
    (∀ (line : List Char) (n : Nat) (lines : List (List Char)),
      startsWithL [dqChar, dqChar, dqChar] (trimL line) = true ∨
      startsWithL [sqChar, sqChar, sqChar] (trimL line) = true ∨
      PythonLineAnalyzer.isInsideMultiLineString (n - 1) lines = true →
      PythonLineAnalyzer.isExecutableLine line n lines = false) ∧
    (∀ line : List Char,
      countTriple dqChar line % 2 = 1 → countTriple sqChar line % 2 = 0 →
      PythonLineAnalyzer.mlsLine .outside line = .inDouble ∧
      PythonLineAnalyzer.mlsLine .inDouble line = .outside ∧
      PythonLineAnalyzer.mlsLine .inSingle line = .inSingle) ∧
    (∀ line : List Char,
      countTriple sqChar line % 2 = 1 → countTriple dqChar line % 2 = 0 →
      PythonLineAnalyzer.mlsLine .outside line = .inSingle ∧
      PythonLineAnalyzer.mlsLine .inSingle line = .outside ∧
      PythonLineAnalyzer.mlsLine .inDouble line = .inDouble) ∧
    (∀ line : List Char,
      countTriple dqChar line % 2 = 0 → countTriple sqChar line % 2 = 0 →
      ∀ st : PythonLineAnalyzer.QuoteState,
      PythonLineAnalyzer.mlsLine st line = st) := by
  refine ⟨?_, ?_, ?_, ?_⟩
  · intro line n lines h
    unfold PythonLineAnalyzer.isExecutableLine
    rcases h with h | h | h <;> simp [h]
  · intro line h1 h2
    refine ⟨?_, ?_, ?_⟩ <;> simp [PythonLineAnalyzer.mlsLine, h1, h2]
  · intro line h1 h2
    refine ⟨?_, ?_, ?_⟩ <;> simp [PythonLineAnalyzer.mlsLine, h1, h2]
  · intro line h1 h2 st
    simp [PythonLineAnalyzer.mlsLine, h1, h2]

/-- Witness for C8: a concrete docstring line is non-executable, and a
concrete `"""` opener toggles the scan state while leaving an open `'''`
span untouched. -/
theorem c8_amended_witness :
    (startsWithL [dqChar, dqChar, dqChar] (trimL docstringLine) = true ∧
     PythonLineAnalyzer.isExecutableLine docstringLine 1 [docstringLine] = false) ∧
    (countTriple dqChar docstringLine % 2 = 1 ∧ countTriple sqChar docstringLine % 2 = 0 ∧
     (PythonLineAnalyzer.mlsLine .outside docstringLine = .inDouble ∧
      PythonLineAnalyzer.mlsLine .inDouble docstringLine = .outside ∧
      PythonLineAnalyzer.mlsLine .inSingle docstringLine = .inSingle)) :=
  ⟨⟨by decide, c8_amended.1 docstringLine 1 [docstringLine] (Or.inl (by decide))⟩,
    ⟨by decide, by decide, c8_amended.2.1 docstringLine (by decide) (by decide)⟩⟩

/-- Every line in the armed set of a sweep either was armed before or passed
the sweep's own executability check. -/
theorem vfGo_armed_executable (isPair : Bool) (lines : List (List Char))
    (cleared : List Nat) (stepOk : Nat → Bool) :
    ∀ (rem : List Nat) (st : V2.VFState) (n : Nat),
      n ∈ (V2.vfGo isPair lines cleared stepOk rem st).armed →
      n ∈ st.armed ∨
        V2.isExecutableLine (V2.analyzeLineWaiting (lines.getD (n - 1) [])) = true := by
  intro rem
  induction rem with
  | nil => intro st n h; exact Or.inl h
  | cons m rest ih =>
    intro st n h
    simp only [V2.vfGo] at h
    split at h
    · exact Or.inl h
    · split at h
      · exact ih st n h
      · split at h
        · exact ih st n h
        · rename_i hexec
          simp only [Bool.not_eq_true', Bool.not_eq_false] at hexec
          split at h
          · rcases ih _ n h with hmem | hP
            · simp [V2.validateLineArm] at hmem
              rcases hmem with hmem | rfl
              · exact Or.inl hmem
              · exact Or.inr hexec
            · exact Or.inr hP
          · split at h
            · simp [V2.validateLineArm] at h
              rcases h with hmem | rfl
              · exact Or.inl hmem
              · exact Or.inr hexec
            · rcases ih _ n h with hmem | hP
              · simp [V2.validateLineArm] at hmem
                rcases hmem with hmem | rfl
                · exact Or.inl hmem
                · exact Or.inr hexec
              · exact Or.inr hP

/-- C5 counterexample: the decorator line `@decorator` is classified
non-executable by the Python Line Classifier, yet the sweep arms a
breakpoint on it — `validateFile` consults only its own
`isExecutableLine`/`analyzeLineWaiting` check, which lets decorators,
docstrings, continuation lines and closing-bracket lines through. -/
theorem c5_counterexample :
    PythonLineAnalyzer.isExecutableLine decoratorLine 1 [decoratorLine] = false ∧
    (V2.validateFile false [decoratorLine] [] (fun _ => true) 1).armed = [1] := by
  decide

/-- C5 amended: the sweep never arms a breakpoint on a line that *its own*
executability check (type `import`/`function_def`/`method_def`, or an empty,
comment or bare-`pass` line) deems non-executable; lines the Python Line
Classifier would reject for other reasons (docstring spans, decorators,
continuations, closing brackets) can still be armed. -/
theorem c5_amended (isPair : Bool) (lines : List (List Char)) (cleared : List Nat)
    (stepOk : Nat → Bool) (startLine n : Nat)
    (h : n ∈ (V2.validateFile isPair lines cleared stepOk startLine).armed) :
    V2.isExecutableLine (V2.analyzeLineWaiting (lines.getD (n - 1) [])) = true := by
  rcases vfGo_armed_executable isPair lines cleared stepOk _ _ n h with h0 | h0
  · simp at h0
  · exact h0

/-- Witness for C5 on a one-line file whose single line is armed. -/
theorem c5_amended_witness :
    1 ∈ (V2.validateFile false [xAssignLine] [] (fun _ => true) 1).armed ∧
    V2.isExecutableLine (V2.analyzeLineWaiting ([xAssignLine].getD (1 - 1) [])) = true :=
  ⟨by decide, c5_amended false [xAssignLine] [] (fun _ => true) 1 1 (by decide)⟩

/-- The request log and the armed set grow in lockstep: every `setBreakpoint`
request issued by the sweep carries exactly the one line it arms. -/
theorem vfGo_requests_singleton (isPair : Bool) (lines : List (List Char))
    (cleared : List Nat) (stepOk : Nat → Bool) :
    ∀ (rem : List Nat) (st : V2.VFState),
      st.requests = st.armed.map (fun n => [n]) →
      (V2.vfGo isPair lines cleared stepOk rem st).requests =
        (V2.vfGo isPair lines cleared stepOk rem st).armed.map (fun n => [n]) := by
  intro rem
  induction rem with
  | nil => intro st h; exact h
  | cons m rest ih =>
    intro st h
    simp only [V2.vfGo]
    split
    · exact h
    · split
      · exact ih st h
      · split
        · exact ih st h
        · have harm : (V2.validateLineArm st m).requests =
              (V2.validateLineArm st m).armed.map (fun n => [n]) := by
            simp [V2.validateLineArm, h]
          split
          · exact ih _ harm
          · split
            · exact harm
            · exact ih _ harm

/-- In auto mode the sweep arms exactly the not-yet-cleared lines that pass
its executability check, in line order, whatever the step outcomes. -/
theorem vfGo_armed_filter (lines : List (List Char)) (cleared : List Nat)
    (stepOk : Nat → Bool) :
    ∀ (rem : List Nat) (st : V2.VFState), st.sstate = SessState.running →
      (V2.vfGo false lines cleared stepOk rem st).armed =
        st.armed ++ rem.filter (fun n => !cleared.contains n &&
          V2.isExecutableLine (V2.analyzeLineWaiting (lines.getD (n - 1) []))) := by
  intro rem
  induction rem with
  | nil => intro st _; simp [V2.vfGo]
  | cons m rest ih =>
    intro st hrun
    simp only [V2.vfGo, List.filter_cons]
    rw [if_neg (by simp [hrun])]
    by_cases hc : cleared.contains m = true
    · simp only [hc, if_true, Bool.not_true, Bool.false_and, Bool.false_eq_true, if_false]
      exact ih st hrun
    · rw [Bool.not_eq_true] at hc
      simp only [hc, Bool.not_false, Bool.true_and, Bool.false_eq_true, if_false]
      by_cases he :
          V2.isExecutableLine (V2.analyzeLineWaiting (lines.getD (m - 1) [])) = true
      · simp only [he, Bool.not_true, Bool.false_eq_true, if_false, if_true]
        by_cases hs : stepOk m = true
        · rw [if_pos hs,
            ih { V2.validateLineArm st m with
                  validated := (V2.validateLineArm st m).validated + 1 } hrun]
          simp [V2.validateLineArm]
        · rw [Bool.not_eq_true] at hs
          rw [if_neg (by simp [hs])]
          rw [ih { V2.validateLineArm st m with
                errors := (V2.validateLineArm st m).errors ++ [m] } hrun]
          simp [V2.validateLineArm]
      · rw [Bool.not_eq_true] at he
        simp only [he, Bool.not_false, if_true, Bool.false_eq_true, if_false]
        exact ih st hrun

/-- C4 counterexample: a file with two candidate executable lines produces
two `setBreakpoint` requests of one line each — not a single bulk request
carrying both lines. -/
theorem c4_counterexample :
    (V2.validateFile false [xAssignLine, yAssignLine] [] (fun _ => true) 1).requests =
      [[1], [2]] ∧
    ((V2.validateFile false [xAssignLine, yAssignLine] [] (fun _ => true) 1).requests).length ≠ 1 := by
  decide

/-- C4 amended: the sweep arms breakpoints at exactly the candidate
executable lines, but one line at a time — each candidate line produces its
own `setBreakpoint` request carrying just that line, with no bulk request —
and in auto mode the armed lines are exactly the uncleared lines passing the
sweep's executability check. -/
theorem c4_amended (lines : List (List Char)) (cleared : List Nat)
    (stepOk : Nat → Bool) (startLine : Nat) :
    (V2.validateFile false lines cleared stepOk startLine).requests =
      (V2.validateFile false lines cleared stepOk startLine).armed.map (fun n => [n]) ∧
    (V2.validateFile false lines cleared stepOk startLine).armed =
      (List.range' startLine (lines.length + 1 - startLine)).filter
        (fun n => !cleared.contains n &&
          V2.isExecutableLine (V2.analyzeLineWaiting (lines.getD (n - 1) []))) := by
  constructor
  · exact vfGo_requests_singleton false lines cleared stepOk _ _ rfl
  · exact vfGo_armed_filter lines cleared stepOk _ _ rfl

/-- C6 counterexample: after a completed sweep over a one-line file the
armed breakpoint is still set — `validateLine` ends with "since there's no
removeBreakpoint method, we'll just leave it for now", so nothing is ever
cleared. -/
theorem c6_counterexample :
    (V2.validateFile false [xAssignLine] [] (fun _ => true) 1).armed = [1] ∧
    (V2.validateFile false [xAssignLine] [] (fun _ => true) 1).armed ≠ [] := by
  decide

/-- C6 amended: on sweep exit for any reason (normal completion, pause in
pair mode, or per-line errors in auto mode) the breakpoints armed by the
sweep are *not* cleared: the external session's armed set only ever grows
during the sweep, so every armed breakpoint is still set when the sweep
returns. -/
theorem c6_amended (isPair : Bool) (lines : List (List Char)) (cleared : List Nat)
    (stepOk : Nat → Bool) :
    ∀ (rem : List Nat) (st : V2.VFState),
      ∃ added, (V2.vfGo isPair lines cleared stepOk rem st).armed = st.armed ++ added := by
  intro rem
  induction rem with
  | nil => intro st; exact ⟨[], by simp [V2.vfGo]⟩
  | cons m rest ih =>
    intro st
    simp only [V2.vfGo]
    split
    · exact ⟨[], by simp⟩
    · split
      · exact ih st
      · split
        · exact ih st
        · split
          · obtain ⟨a, ha⟩ := ih { V2.validateLineArm st m with
              validated := (V2.validateLineArm st m).validated + 1 }
            exact ⟨m :: a, by rw [ha]; simp [V2.validateLineArm]⟩
          · split
            · exact ⟨[m], by simp [V2.validateLineArm]⟩
            · obtain ⟨a, ha⟩ := ih { V2.validateLineArm st m with
                errors := (V2.validateLineArm st m).errors ++ [m] }
              exact ⟨m :: a, by rw [ha]; simp [V2.validateLineArm]⟩

/-- C1 counterexample: `completed` is not terminal — the cited
`pauseValidation` moves a completed session to `paused`, and a
`startValidation` call on a completed session proceeds (there is no
terminal-state check) and can move it to `error`. -/
theorem c1_counterexample :
    V2.pauseValidationState SessState.completed = SessState.paused ∧
    V2.pauseValidationState SessState.error = SessState.paused ∧
    V1.startValidation ⟨true, true, true, false, false⟩ false false false
        noStackStream 1 { vinit with sstate := SessState.completed } =
      V1.SVOut.ret false SessState.error [] := by
  decide

/-- C1 amended: during a sweep the state moves along
running→{paused, completed, error} and paused→running, but `completed` and
`error` are not terminal for the session id: `startValidation`
unconditionally sets any existing session's state to `running` (its result
does not depend on the prior state at all), and the cited `pauseValidation`
sets any existing session to `paused` regardless of its current state. -/
theorem c1_amended :
    (∀ s : SessState, V2.pauseValidationState s = SessState.paused) ∧
    (∀ (env : V1.SVEnv) (sk fc pv : Bool) (stream : Nat → V1.IterInput)
        (fuel : Nat) (st0 : V1.VEState),
      V1.startValidation env sk fc pv stream fuel st0 =
        V1.startValidation env sk fc pv stream fuel
          { st0 with sstate := SessState.running }) :=
  ⟨fun _ => rfl, fun _ _ _ _ _ _ _ => rfl⟩

/-- C2 counterexample: with the validation session, its store and the debug
session all present, a timeout of the *initial* wait for the debugger to
pause (before the sweep starts) makes `startValidation` return
`success=false` with the session in state `error` and nothing recorded in
`errorsFound` — a target-side failure that is not localized to the sweep. -/
theorem c2_counterexample :
    V1.startValidation ⟨true, true, true, false, false⟩ false false false
        noStackStream 1 vinit =
      V1.SVOut.ret false SessState.error [] := by
  decide

/-- C2 amended: the three missing-resource cases *throw* rather than
returning `success=false`; `success=false` is returned with state `error`
when the initial wait for the debugger to pause times out (with `errorsFound`
untouched); and whenever the sweep itself returns normally — which it does
for every failure its loop catches — `startValidation` returns
`success=true` with state `completed` and the sweep's accumulated errors. -/
theorem c2_amended (env : V1.SVEnv) (sk fc pv : Bool)
    (stream : Nat → V1.IterInput) (fuel : Nat) (st0 : V1.VEState) :
    (env.sessionExists = false ∨ env.storeExists = false ∨
        env.debugSessionExists = false →
      V1.startValidation env sk fc pv stream fuel st0 = V1.SVOut.thrown) ∧
    (env.sessionExists = true → env.storeExists = true →
      env.debugSessionExists = true → env.execPaused = false →
      env.initialWaitOk = false →
      V1.startValidation env sk fc pv stream fuel st0 =
        V1.SVOut.ret false SessState.error st0.errors) ∧
    (∀ stf : V1.VEState,
      env.sessionExists = true → env.storeExists = true →
      env.debugSessionExists = true →
      (env.execPaused = true ∨ env.initialWaitOk = true) →
      V1.veRun sk fc pv stream fuel 0 { st0 with sstate := SessState.running } =
        some (V1.VEResult.normal stf) →
      V1.startValidation env sk fc pv stream fuel st0 =
        V1.SVOut.ret true SessState.completed stf.errors) := by
  refine ⟨?_, ?_, ?_⟩
  · rintro (h | h | h) <;> simp [V1.startValidation, h]
  · intro h1 h2 h3 h4 h5
    simp [V1.startValidation, h1, h2, h3, h4, h5]
  · intro stf h1 h2 h3 h4 h5
    exact sv_completed_of_normal env sk fc pv stream fuel st0 stf h1 h2 h3 h4 h5

/-- Witness for C2: a run whose sweep ends at once on an empty stack trace
returns success with the completed session. -/
theorem c2_amended_witness :
    V1.veRun false false false noStackStream 1 0 { vinit with sstate := SessState.running } =
      some (V1.VEResult.normal vinit) ∧
    V1.startValidation ⟨true, true, true, true, true⟩ false false false
        noStackStream 1 vinit =
      V1.SVOut.ret true SessState.completed vinit.errors :=
  ⟨by decide,
    (c2_amended ⟨true, true, true, true, true⟩ false false false noStackStream 1 vinit).2.2
      vinit rfl rfl rfl (Or.inl rfl) (by decide)⟩

/-- C3 counterexample: a target runtime error at line 3 whose recovery step
also fails produces exactly one `errorsFound` entry and exactly one recovery
attempt, but the session ends in state `completed` with `success=true`, not
in state `error` — `validateExecution` merely `break`s and `startValidation`
then runs `session.state = 'completed'`. -/
theorem c3_counterexample :
    V1.veRun false false false c3stream 2 0 { vinit with sstate := SessState.running } =
      some (V1.VEResult.normal
        ⟨SessState.running, errFile, 3, [(errFile, 3)], [⟨errFile, 3, boomMsg⟩], 0, 1⟩) ∧
    V1.startValidation ⟨true, true, true, true, true⟩ false false false c3stream 2 vinit =
      V1.SVOut.ret true SessState.completed [⟨errFile, 3, boomMsg⟩] := by
  decide

/-- C3 amended: when the external session reports a non-termination error at
a line, `errorsFound` gains exactly one entry for that line (not
duplicated), the sweep attempts exactly one more resume, and if that resume
also fails the sweep ends with the session in state `completed` and the call
reporting `success=true` — not in state `error`. -/
theorem c3_amended (sk fc : Bool) (st : V1.VEState) (f : List Char) (l : Nat)
    (msg rmsg content : List Char) (clr : Bool)
    (hmsg : containsSub exitedKw msg = false ∧ containsSub terminatedKw msg = false) :
    (V1.veIter sk fc false st ⟨false, .frame f l, clr, some msg, some rmsg, content, false⟩ =
      V1.IterOut.halt
        { st with
          currentFile := f
          currentLine := l
          processed := if st.processed.contains (f, l) then st.processed
                       else (f, l) :: st.processed
          errors := st.errors ++ [⟨f, l, msg⟩]
          recoverySteps := st.recoverySteps + 1 }) ∧
    (∀ (env : V1.SVEnv) (pv : Bool) (stream : Nat → V1.IterInput) (fuel : Nat)
        (st0 stf : V1.VEState),
      env.sessionExists = true → env.storeExists = true →
      env.debugSessionExists = true →
      (env.execPaused = true ∨ env.initialWaitOk = true) →
      V1.veRun sk fc pv stream fuel 0 { st0 with sstate := SessState.running } =
        some (V1.VEResult.normal stf) →
      V1.startValidation env sk fc pv stream fuel st0 =
        V1.SVOut.ret true SessState.completed stf.errors) := by
  constructor
  · obtain ⟨hm1, hm2⟩ := hmsg
    simp only [V1.veIter, V1.veCatch, hm1, hm2, Bool.or_self, Bool.false_eq_true,
      if_false, Bool.false_and]
    split
    · rename_i hmem
      simp [hmem]
    · rename_i hmem
      simp only [Bool.not_eq_true] at hmem
      split
      · simp [hmem]
      · simp [hmem]
  · intro env pv stream fuel st0 stf h1 h2 h3 h4 h5
    exact sv_completed_of_normal env sk fc pv stream fuel st0 stf h1 h2 h3 h4 h5

/-- Witness for C3 at the concrete error scenario. -/
theorem c3_amended_witness :
    (containsSub exitedKw boomMsg = false ∧ containsSub terminatedKw boomMsg = false) ∧
    V1.veIter false false false vinit
        ⟨false, .frame errFile 3, false, some boomMsg, some failMsg, [], false⟩ =
      V1.IterOut.halt
        { vinit with
          currentFile := errFile
          currentLine := 3
          processed := if vinit.processed.contains (errFile, 3) then vinit.processed
                       else (errFile, 3) :: vinit.processed
          errors := vinit.errors ++ [⟨errFile, 3, boomMsg⟩]
          recoverySteps := vinit.recoverySteps + 1 } :=
  ⟨by decide,
    (c3_amended false false vinit errFile 3 boomMsg failMsg [] false (by decide)).1⟩

/-- Against `c7stream` the loop state reached after the first iteration is a
fixed point: every iteration re-reports an already-processed frame and the
loop continues, for any amount of fuel. -/
theorem veRun_c7_fix : ∀ k i : Nat,
    V1.veRun false false false c7stream k i c7fix = none := by
  intro k
  induction k with
  | zero => intro i; rfl
  | succ n ih => intro i; exact ih (i + 1)

/-- From a fresh session, the first iteration against `c7stream` processes
the frame and reaches the fixed point, so the loop runs forever. -/
theorem veRun_c7_init : ∀ k : Nat,
    V1.veRun false false false c7stream k 0 vinit = none := by
  intro k
  cases k with
  | zero => rfl
  | succ n => exact veRun_c7_fix n 1

/-- C7 counterexample: against an external session that forever reports
stops at the same frame, the loop is still running after one million
iterations — there is no iteration ceiling in `validateExecution`; its only
loop condition is `session.state === 'running'`. -/
theorem c7_counterexample :
    V1.veRun false false false c7stream 1000000 0 vinit = none :=
  veRun_c7_init 1000000

/-- C7 amended: the resume/stop cycle has no iteration ceiling: the loop
runs while the session state is `running` and ends only on a missing or
invalid stack trace, a termination signal, a failed recovery resume, or an
escaped exception; a stop stream that forever re-reports the same frame
keeps the loop iterating for every fuel bound. -/
theorem c7_amended : ∀ k : Nat,
    V1.veRun false false false c7stream k 0 vinit = none :=
  fun k => veRun_c7_init k

/-- C9: after `markLineCleared(p, n)` succeeds against content `c`, and the
file's content changes to `c2 ≠ c`, the next read discards the stale
ledger entry entirely: `isLineCleared` returns false, `getClearedLines`
returns the empty set, and `getFileState` reports the entry absent — in each
case the returned store no longer holds any entry for `p`. -/
theorem c9_stale_entry_discarded (p c c2 : List Char) (n : Nat) (h : c ≠ c2) :
    (ClearedLinesStore.markLineCleared [(p, c)] [] p n = [(p, ⟨c, [n]⟩)]) ∧
    (ClearedLinesStore.isLineCleared [(p, c)] [(p, ⟨c, [n]⟩)] p n =
      (true, [(p, ⟨c, [n]⟩)])) ∧
    (ClearedLinesStore.isLineCleared [(p, c2)] [(p, ⟨c, [n]⟩)] p n = (false, [])) ∧
    (ClearedLinesStore.getClearedLines [(p, c2)] [(p, ⟨c, [n]⟩)] p = ([], [])) ∧
    (ClearedLinesStore.getFileState [(p, c2)] [(p, ⟨c, [n]⟩)] p = (none, [])) := by
  have hbeq : (c == c2) = false := by
    simp [h]
  refine ⟨?_, ?_, ?_, ?_, ?_⟩
  · simp [ClearedLinesStore.markLineCleared, ClearedLinesStore.fsRead,
      ClearedLinesStore.lookupEntry]
  · simp [ClearedLinesStore.isLineCleared, ClearedLinesStore.invalidateIfStale,
      ClearedLinesStore.lookupEntry, ClearedLinesStore.fsRead]
  · simp [ClearedLinesStore.isLineCleared, ClearedLinesStore.invalidateIfStale,
      ClearedLinesStore.lookupEntry, ClearedLinesStore.fsRead, hbeq]
  · simp [ClearedLinesStore.getClearedLines, ClearedLinesStore.invalidateIfStale,
      ClearedLinesStore.lookupEntry, ClearedLinesStore.fsRead, hbeq]
  · simp [ClearedLinesStore.getFileState, ClearedLinesStore.invalidateIfStale,
      ClearedLinesStore.lookupEntry, ClearedLinesStore.fsRead, hbeq]

/-- Witness for C9 at concrete path and contents. -/
theorem c9_witness :
    (xAssignLine ≠ yAssignLine) ∧
    ((ClearedLinesStore.markLineCleared [(pathB, xAssignLine)] [] pathB 1 =
        [(pathB, ⟨xAssignLine, [1]⟩)]) ∧
     (ClearedLinesStore.isLineCleared [(pathB, xAssignLine)]
        [(pathB, ⟨xAssignLine, [1]⟩)] pathB 1 =
        (true, [(pathB, ⟨xAssignLine, [1]⟩)])) ∧
     (ClearedLinesStore.isLineCleared [(pathB, yAssignLine)]
        [(pathB, ⟨xAssignLine, [1]⟩)] pathB 1 = (false, [])) ∧
     (ClearedLinesStore.getClearedLines [(pathB, yAssignLine)]
        [(pathB, ⟨xAssignLine, [1]⟩)] pathB = ([], [])) ∧
     (ClearedLinesStore.getFileState [(pathB, yAssignLine)]
        [(pathB, ⟨xAssignLine, [1]⟩)] pathB = (none, []))) :=
  ⟨by decide, c9_stale_entry_discarded pathB xAssignLine yAssignLine 1 (by decide)⟩
